import Mathlib

/-!
# Verification of the NSG index facade (faiss/IndexNSG.cpp, faiss/impl/NSG.h)

Shallow embedding of the NSG index facade. Pure control flow is translated
from `IndexNSG.cpp`; the storage backends (`IndexFlat`), the NNDescent seed
builder and the bodies of `NSG::search` / `NSG::build` / `NSG::reset`
(`NSG.cpp`) are not part of the sources and are modelled from the
specification where a claim needs them, as marked in the doc comments.
Machine `idx_t` values that hold node ids are embedded as `Int`; counters
that are provably non-negative (`ntotal`, row counts) are embedded as `Nat`.
-/

set_option autoImplicit false

deriving instance DecidableEq for Except

namespace Faiss

/-- Model of the IEEE float values that flow through the NSG search path.
Only negation and the `+inf` sentinel are ever used by the embedded code,
and both are exact on floats, so a three-way model (finite value, `+inf`,
`-inf`) is faithful for the stated claims. -/
inductive FloatV where
  | num : Int → FloatV
  | inf : FloatV
  | ninf : FloatV
deriving DecidableEq

/-- Float negation: exact sign flip (`distances[i] = -distances[i]`). -/
def FloatV.neg : FloatV → FloatV
  | .num x => .num (-x)
  | .inf => .ninf
  | .ninf => .inf

/-- The two metric types the NSG path distinguishes (`MetricType.h`). -/
inductive MetricType where
  | METRIC_L2
  | METRIC_INNER_PRODUCT
deriving DecidableEq

/-- Modelled from the spec: `is_similarity_metric` holds for inner product,
whose distances are negated internally so the engine always minimizes. -/
def is_similarity_metric : MetricType → Bool
  | .METRIC_INNER_PRODUCT => true
  | .METRIC_L2 => false

/-- Modelled from the spec: the flat storage backend (`IndexFlat`, not part
of the sources): it materializes added vectors verbatim, in order. -/
structure FlatStorage (V : Type) where
  vecs : List V
deriving DecidableEq

/-- Modelled from the spec: `Storage::add` appends the `n` new vectors. -/
def FlatStorage.add {V : Type} (s : FlatStorage V) (xs : List V) : FlatStorage V :=
  ⟨s.vecs ++ xs⟩

/-- `Storage::ntotal`: number of stored vectors. -/
def FlatStorage.ntotal {V : Type} (s : FlatStorage V) : Nat :=
  s.vecs.length

/-- Modelled from the spec: `reconstruct(id) -> vector`, verbatim readback. -/
def FlatStorage.reconstruct {V : Type} (s : FlatStorage V) (i : Nat) : Option V :=
  s.vecs.get? i

/-- Modelled from the spec: `Storage::reset` drops all stored vectors. -/
def FlatStorage.reset {V : Type} (_s : FlatStorage V) : FlatStorage V :=
  ⟨[]⟩

/-- Modelled from the spec: flat storage requires no training, so
`Storage::train` leaves it unchanged. -/
def FlatStorage.train {V : Type} (s : FlatStorage V) (_xs : List V) : FlatStorage V :=
  s

/-- The NSG engine state (fields of `struct NSG` in `NSG.h`). Build-only
parameters (`L`, `C`) and the RNG are omitted: no claim mentions them. -/
structure NSGEngine where
  ntotal : Nat
  R : Int
  search_L : Int
  enterpoint : Int
  final_graph : Option (List (List Int))
  is_built : Bool
deriving DecidableEq

/-- `NSG::NSG(int R)` (`NSG.cpp`, modelled from the spec and the header
defaults): empty engine, `search_L = 16`, no graph yet. The pre-build
`enterpoint` value is unspecified in the sources; `0` stands in. -/
def NSGEngine.init (R : Int) : NSGEngine :=
  { ntotal := 0, R := R, search_L := 16, enterpoint := 0,
    final_graph := none, is_built := false }

/-- Modelled from the spec: `NSG::build` derives the pruned navigable graph
from the seed KNN graph (medoid selection, link, reverse links, tree grow)
and marks the engine built. The edge-selection internals are out of scope
for the stated claims; the embedding records the node count, that a graph
derived from the seed is present, and the built flag. -/
def NSGEngine.build (nsg : NSGEngine) (n : Nat) (knng : List (List Int)) : NSGEngine :=
  { nsg with ntotal := n, final_graph := some knng, is_built := true }

/-- Modelled from the spec: `NSG::reset` clears the engine: the graph
structure is dropped and the engine returns to the unbuilt empty state. -/
def NSGEngine.reset (nsg : NSGEngine) : NSGEngine :=
  { nsg with ntotal := 0, final_graph := none, is_built := false }

/-- The error conditions raised by the embedded operations
(`FAISS_THROW_*` sites of `IndexNSG.cpp`, one constructor per message). -/
inductive FaissError where
  | nullStorage
  | notTrained
  | alreadyBuilt
  | invalidKnnGraph
  | badBuildType
  | ntotalMismatch
  | searchParamsUnsupported
deriving DecidableEq

/-- The `IndexNSG` facade state: base `Index` fields (`d`, `metric_type`,
`is_trained`, `ntotal`), the engine, the optional storage pointer and the
header fields `build_type`, `GK`, `own_fields` (`IndexNSG.h`). -/
structure IndexNSG (V : Type) where
  d : Nat
  metric_type : MetricType
  is_trained : Bool
  ntotal : Nat
  nsg : NSGEngine
  storage : Option (FlatStorage V)
  build_type : Nat
  GK : Nat
  own_fields : Bool
  is_built : Bool
deriving DecidableEq

/-- `IndexNSG::IndexNSG(Index* storage, int R)`: takes a storage, sets
`build_type = 1`; base `Index` defaults give `is_trained = true`. -/
def IndexNSG.mkWithStorage {V : Type} (st : FlatStorage V) (d : Nat) (R : Int)
    (metric : MetricType) : IndexNSG V :=
  { d := d, metric_type := metric, is_trained := true, ntotal := 0,
    nsg := NSGEngine.init R, storage := some st, build_type := 1,
    GK := 64, own_fields := false, is_built := false }

/-- `IndexNSGFlat::IndexNSGFlat(int d, int R, MetricType metric)`: attaches
a fresh flat storage, owns it, and is trained from the start. -/
def IndexNSGFlat (V : Type) (d : Nat) (R : Int) (metric : MetricType) : IndexNSG V :=
  { IndexNSG.mkWithStorage ⟨[]⟩ d R metric with own_fields := true, is_trained := true }

/-- One entry of the seed KNN graph is invalid when it is negative,
out of range, or equal to its own row index (`check_knn_graph`, the
condition `id < 0 || id >= n || id == i`). -/
def invalid_entry (n : Nat) (i : Nat) (id : Int) : Bool :=
  id < 0 || (n : Int) ≤ id || id = (i : Int)

/-- Invalid entries of row `i` (inner loop of `check_knn_graph`). -/
def row_invalid_count (n : Nat) (i : Nat) (row : List Int) : Nat :=
  (row.filter (invalid_entry n i)).length

/-- `total_count` of `check_knn_graph`: invalid entries over all rows. -/
def knn_invalid_count (n : Nat) : Nat → List (List Int) → Nat
  | _, [] => 0
  | i, row :: rest => row_invalid_count n i row + knn_invalid_count n (i + 1) rest

/-- `IndexNSG::check_knn_graph`: count the invalid entries and throw
unless `total_count < n / 10` (integer division; the warning printed on
any invalid entry is diagnostic only and is not modelled). -/
def check_knn_graph (g : List (List Int)) (n : Nat) : Except FaissError Unit :=
  if knn_invalid_count n 0 g < n / 10 then Except.ok () else Except.error FaissError.invalidKnnGraph

/-- The guard of `add` and `build`: `!is_built && ntotal == 0`
(`"NSG does not support incremental addition"` otherwise). -/
def incremental_guard {V : Type} (idx : IndexNSG V) : Bool :=
  !idx.is_built && idx.ntotal == 0

/-- The scan loop of the inner-product branch of `IndexNSG::add`
(build_type 0): walk the `GK+1` assigned ids of row `i`, keep those
different from `i`, and break as soon as `count == GK`. -/
def selectNonSelfGo (i : Int) (GK : Nat) : List Int → Nat → List Int
  | [], _ => []
  | id :: rest, count =>
    if id = i then
      if count = GK then [] else selectNonSelfGo i GK rest count
    else
      id :: (if count + 1 = GK then [] else selectNonSelfGo i GK rest (count + 1))

/-- The inner-product self-removal of one row (`count` starts at 0). -/
def removeSelfIP (i : Int) (GK : Nat) (row : List Int) : List Int :=
  selectNonSelfGo i GK row 0

/-- The per-row loop of the inner-product self-removal over all rows,
carrying the row index `i`. -/
def buildKnngIPGo (GK : Nat) : Nat → List (List Int) → List (List Int)
  | _, [] => []
  | i, row :: rest => removeSelfIP (i : Int) GK row :: buildKnngIPGo GK (i + 1) rest

/-- The seed-graph post-processing of `IndexNSG::add` with `build_type = 0`
on the rows returned by `storage->assign(ntotal, x, knng.data(), GK + 1)`:
for inner product, drop the own id by scanning each row; for metric
distances, drop the first assigned id of each row (the `memmove` copies the
`GK` entries starting at offset 1). -/
def buildKnngBF (metric : MetricType) (GK : Nat) (assignRows : List (List Int)) :
    List (List Int) :=
  if metric = MetricType.METRIC_INNER_PRODUCT then
    buildKnngIPGo GK 0 assignRows
  else
    assignRows.map (fun row => (row.drop 1).take GK)

/-- `IndexNSG::train`: requires a storage, delegates to `storage->train`
and sets `is_trained`. The error value carries the state at the throw
point, which for a C++ exception is the state as mutated so far. -/
def IndexNSG.train {V : Type} (idx : IndexNSG V) (xs : List V) :
    Except (FaissError × IndexNSG V) (IndexNSG V) :=
  match idx.storage with
  | none => Except.error (FaissError.nullStorage, idx)
  | some st =>
      Except.ok { idx with storage := some (st.train xs), is_trained := true }

/-- `IndexNSG::build(n, x, knn_graph, GK_2)`: requires a storage and the
guard `!is_built && ntotal == 0`; then `storage->add`, `ntotal =
storage->ntotal`, `check_knn_graph`, `nsg.build`, `is_built = true`.
The vectors are passed as the list `xs` (so `n = xs.length`); the
caller-provided seed graph as rows `g`. -/
def IndexNSG.build {V : Type} (idx : IndexNSG V) (xs : List V)
    (g : List (List Int)) : Except (FaissError × IndexNSG V) (IndexNSG V) :=
  match idx.storage with
  | none => Except.error (FaissError.nullStorage, idx)
  | some st =>
      if incremental_guard idx then
        let st1 := st.add xs
        let idx1 := { idx with storage := some st1, ntotal := st1.ntotal }
        match check_knn_graph g xs.length with
        | Except.ok _ =>
            Except.ok { idx1 with nsg := idx1.nsg.build xs.length g, is_built := true }
        | Except.error e => Except.error (e, idx1)
      else
        Except.error (FaissError.alreadyBuilt, idx)

/-- `IndexNSG::add(n, x)`. The two seed-graph producers live outside the
sources and enter as parameters: `assignRows` stands for the rows returned
by `storage->assign(ntotal, x, knng.data(), GK + 1)` (build_type 0, spec:
brute-force top-`GK+1`), `nndRows` for the NNDescent output graph
(build_type 1, spec: NNDescent on the storage). Control flow, the order of
the mutations, and the checks are translated from the source: null-storage
check, `is_trained` check, incremental guard, `storage->add`,
`ntotal = storage->ntotal`, `ntotal == n` check, seed construction,
`check_knn_graph`, `nsg.build`, `is_built = true`. -/
def IndexNSG.add {V : Type} (idx : IndexNSG V) (assignRows nndRows : List (List Int))
    (xs : List V) : Except (FaissError × IndexNSG V) (IndexNSG V) :=
  match idx.storage with
  | none => Except.error (FaissError.nullStorage, idx)
  | some st =>
      if idx.is_trained then
        if incremental_guard idx then
          if idx.build_type = 0 then
            let st1 := st.add xs
            let idx1 := { idx with storage := some st1, ntotal := st1.ntotal }
            if st1.ntotal = xs.length then
              let knng := buildKnngBF idx.metric_type idx.GK assignRows
              match check_knn_graph knng xs.length with
              | Except.ok _ =>
                  Except.ok
                    { idx1 with nsg := idx1.nsg.build xs.length knng, is_built := true }
              | Except.error e => Except.error (e, idx1)
            else Except.error (FaissError.ntotalMismatch, idx1)
          else if idx.build_type = 1 then
            let st1 := st.add xs
            let idx1 := { idx with storage := some st1, ntotal := st1.ntotal }
            if st1.ntotal = xs.length then
              match check_knn_graph nndRows xs.length with
              | Except.ok _ =>
                  Except.ok
                    { idx1 with nsg := idx1.nsg.build xs.length nndRows, is_built := true }
              | Except.error e => Except.error (e, idx1)
            else Except.error (FaissError.ntotalMismatch, idx1)
          else Except.error (FaissError.badBuildType, idx)
        else Except.error (FaissError.alreadyBuilt, idx)
      else Except.error (FaissError.notTrained, idx)

/-- `IndexNSG::reset`: `nsg.reset(); storage->reset(); ntotal = 0;
is_built = false`. The storage pointer is dereferenced without a null
check, so the embedding is partial: with no storage attached there is no
error branch to take and the result is undefined (`none`). -/
def IndexNSG.reset {V : Type} (idx : IndexNSG V) : Option (IndexNSG V) :=
  match idx.storage with
  | none => none
  | some st =>
      some { idx with nsg := idx.nsg.reset, storage := some st.reset,
                      ntotal := 0, is_built := false }

/-- `IndexNSG::reconstruct`: delegates to `storage->reconstruct` (again an
unchecked dereference; `none` models the missing-storage case). -/
def IndexNSG.reconstruct {V : Type} (idx : IndexNSG V) (key : Nat) : Option V :=
  match idx.storage with
  | none => none
  | some st => st.reconstruct key

/-- Modelled from the spec: one query of `NSG::search` (`NSG.cpp` is not
part of the sources): a bounded best-first walk from the enterpoint with
candidate capacity `max(search_L, k)` (`search_L` may be `-1`, hence the
`max` against `k`), returning the top-`k` candidates and padding the
remaining output slots with id `-1` and distance `+inf`. The best-first
walk itself enters as the function `bfq` from the capacity to the sorted
candidate list it finds. -/
def NSGEngine.searchQuery (nsg : NSGEngine) (bfq : Int → List (Int × FloatV))
    (k : Nat) : List (Int × FloatV) :=
  let res := (bfq (max nsg.search_L (k : Int))).take k
  res ++ List.replicate (k - res.length) ((-1 : Int), FloatV.inf)

/-- The per-query loop of `IndexNSG::search`: row `i` of the output is the
engine's answer for query `i` (the OpenMP chunking over queries does not
change the per-row results and is not modelled). -/
def IndexNSG.searchRows {V : Type} (idx : IndexNSG V)
    (bf : Nat → Int → List (Int × FloatV)) (n k : Nat) : List (List (Int × FloatV)) :=
  (List.range n).map (fun qi => idx.nsg.searchQuery (bf qi) k)

/-- `IndexNSG::search(n, x, k, distances, labels, params)`: rejects search
parameters, requires a storage, runs the engine per query, and for a
similarity metric negates every one of the `k * n` output distance slots
before returning. Output: the flattened labels and distances arrays. -/
def IndexNSG.search {V : Type} (idx : IndexNSG V)
    (bf : Nat → Int → List (Int × FloatV)) (n k : Nat) (params : Option Unit) :
    Except FaissError (List Int × List FloatV) :=
  if params.isSome then Except.error FaissError.searchParamsUnsupported
  else
    match idx.storage with
    | none => Except.error FaissError.nullStorage
    | some _ =>
        let rows := idx.searchRows bf n k
        let labels := (rows.map (fun r => r.map Prod.fst)).flatten
        let dist0 := (rows.map (fun r => r.map Prod.snd)).flatten
        let dists :=
          if is_similarity_metric idx.metric_type then dist0.map FloatV.neg else dist0
        Except.ok (labels, dists)

/-- `nsg::Graph::get_neighbors`, inner loop on one row: walk the `K`
entries of row `i` and stop at the first negative one. -/
def get_neighbors_row : List Int → List Int
  | [] => []
  | x :: rest => if x < 0 then [] else x :: get_neighbors_row rest

/-- The `nsg::Graph` adjacency structure: `N` rows of `K` node ids each
(`data[i * K + j]` is the `j`-th neighbor of node `i`). -/
structure Graph where
  N : Nat
  K : Nat
  data : List (List Int)
deriving DecidableEq

/-- `nsg::Graph::get_neighbors(i, neighbors)`: the valid neighbors of node
`i`, i.e. row `i` cut at the first negative entry. -/
def Graph.get_neighbors (g : Graph) (i : Nat) : List Int :=
  get_neighbors_row (g.data.getD i [])

/-! ## Concrete instances used by counterexamples and witnesses -/

/-- A fresh brute-force-seeded NSG flat index over unit payloads
(`build_type = 0`, metric L2, seed fanout `GK = 2`). -/
def idx0 : IndexNSG Unit :=
  { d := 1, metric_type := MetricType.METRIC_L2, is_trained := true, ntotal := 0,
    nsg := NSGEngine.init 4, storage := some ⟨[]⟩, build_type := 0,
    GK := 2, own_fields := true, is_built := false }

/-- Ten payload vectors (contents irrelevant to the control flow). -/
def xs0 : List Unit := List.replicate 10 ()

/-- `storage->assign` output for ten identical vectors with ascending-id tie
break: every row lists ids `0, 1, 2`. -/
def aR0 : List (List Int) := List.replicate 10 [0, 1, 2]

/-- The state `IndexNSG::add idx0 ...` is left in when seed validation
throws: vectors stored, `ntotal` advanced, not built. -/
def idx0' : IndexNSG Unit := { idx0 with storage := some ⟨xs0⟩, ntotal := 10 }

/-- A seed graph with 10 rows of 2 entries and exactly one invalid entry
(the `-1` in row 0). -/
def g10 : List (List Int) :=
  [[-1, 1], [2, 3], [3, 4], [4, 5], [5, 6], [6, 7], [7, 8], [8, 9], [9, 0], [0, 1]]

/-! ## Row truncation (claim C8) -/

/-- Row-level behaviour of `get_neighbors`: the result is a prefix of the
row, every yielded entry is non-negative, and either the whole row is
yielded or the first entry past the result is negative. -/
theorem get_neighbors_row_spec (row : List Int) :
    get_neighbors_row row <+: row ∧
    (∀ x ∈ get_neighbors_row row, 0 ≤ x) ∧
    (get_neighbors_row row = row ∨
      ∃ y, row[(get_neighbors_row row).length]? = some y ∧ y < 0) := by
  induction row with
  | nil =>
      exact ⟨List.prefix_rfl, (by intro x hx; cases hx), Or.inl rfl⟩
  | cons x rest ih =>
      by_cases hx : x < 0
      · refine ⟨?_, ?_, Or.inr ⟨x, ?_, hx⟩⟩
        · simp [get_neighbors_row, hx]
        · intro y hy
          simp [get_neighbors_row, hx] at hy
        · simp [get_neighbors_row, hx]
      · obtain ⟨hpre, hmem, hlast⟩ := ih
        refine ⟨?_, ?_, ?_⟩
        · have : x :: get_neighbors_row rest <+: x :: rest :=
            List.cons_prefix_cons.mpr ⟨rfl, hpre⟩
          simpa [get_neighbors_row, hx] using this
        · intro y hy
          simp only [get_neighbors_row, hx, if_false, List.mem_cons] at hy
          rcases hy with rfl | hy
          · omega
          · exact hmem y hy
        · rcases hlast with h | ⟨y, hy, hneg⟩
          · exact Or.inl (by simp [get_neighbors_row, hx, h])
          · exact Or.inr ⟨y, by simpa [get_neighbors_row, hx] using hy, hneg⟩

/-- Claim C8: for every node `i` of an NSG adjacency graph with fanout
bound `K`, `get_neighbors(i)` returns the longest prefix of row `i` with no
negative entry: the entries of row `i` in order, up to but excluding the
first negative entry, and all `K` entries when none is negative. -/
theorem get_neighbors_valid_prefix_spec (g : Graph) (i : Nat) (row : List Int)
    (hrow : g.data[i]? = some row) (hK : row.length = g.K) :
    g.get_neighbors i <+: row ∧
    (∀ x ∈ g.get_neighbors i, 0 ≤ x) ∧
    ((g.get_neighbors i).length = g.K ∨
      ∃ y, row[(g.get_neighbors i).length]? = some y ∧ y < 0) := by
  have hg : g.get_neighbors i = get_neighbors_row row := by
    unfold Graph.get_neighbors
    rw [List.getD_eq_getElem?_getD, hrow]
    rfl
  obtain ⟨hpre, hmem, hlast⟩ := get_neighbors_row_spec row
  refine ⟨hg ▸ hpre, hg ▸ hmem, ?_⟩
  rcases hlast with h | h
  · exact Or.inl (by rw [hg, h, hK])
  · exact Or.inr (hg ▸ h)

/-- Witness for claim C8 at a concrete graph: row 0 of a `2 × 3` adjacency
is cut at the `-1` in position 1. -/
theorem get_neighbors_valid_prefix_spec_witness :
    (Graph.mk 2 3 [[1, -1, 2], [0, 1, 2]]).get_neighbors 0 <+: [1, -1, 2] ∧
    (∀ x ∈ (Graph.mk 2 3 [[1, -1, 2], [0, 1, 2]]).get_neighbors 0, 0 ≤ x) ∧
    (((Graph.mk 2 3 [[1, -1, 2], [0, 1, 2]]).get_neighbors 0).length = 3 ∨
      ∃ y, ([1, -1, 2] : List Int)[((Graph.mk 2 3 [[1, -1, 2], [0, 1, 2]]).get_neighbors 0).length]? =
          some y ∧ y < 0) :=
  get_neighbors_valid_prefix_spec (Graph.mk 2 3 [[1, -1, 2], [0, 1, 2]]) 0
    [1, -1, 2] (by decide) (by decide)

/-! ## Seed-graph validation threshold (claim C1) -/

/-- Claim C1 as stated is false: with `n = 10` rows of `K = 2` entries the
seed `g10` has exactly one invalid entry, which is not more than 10% of the
`n * K = 20` entries, yet the build raises the input error (the source
compares the count against `n / 10`, the row count, not the entry count). -/
theorem check_knn_graph_ten_percent_counterexample :
    IndexNSG.build idx0 xs0 g10 = Except.error (FaissError.invalidKnnGraph, idx0') ∧
    knn_invalid_count 10 0 g10 = 1 ∧
    (g10.map List.length).sum = 20 ∧
    ¬ (10 * knn_invalid_count 10 0 g10 > (g10.map List.length).sum) := by
  refine ⟨?_, by decide, by decide, by decide⟩
  decide

/-- Claim C1 amended: the build fails with the input error exactly when the
number of invalid seed entries is at least `n / 10` (integer division of
the number of rows `n`, regardless of the entry count per row); otherwise
it proceeds and the index ends up built. -/
theorem build_rejects_seed_iff_row_tenth {V : Type} (idx : IndexNSG V)
    (st : FlatStorage V) (xs : List V) (g : List (List Int))
    (hst : idx.storage = some st) (hg : incremental_guard idx = true) :
    (xs.length / 10 ≤ knn_invalid_count xs.length 0 g →
      IndexNSG.build idx xs g =
        Except.error (FaissError.invalidKnnGraph,
          { idx with storage := some (st.add xs), ntotal := (st.add xs).ntotal })) ∧
    (knn_invalid_count xs.length 0 g < xs.length / 10 →
      ∃ idx2, IndexNSG.build idx xs g = Except.ok idx2 ∧ idx2.is_built = true) := by
  constructor
  · intro hcount
    unfold IndexNSG.build
    rw [hst]
    simp only [hg, if_true, check_knn_graph]
    rw [if_neg (by omega)]
  · intro hcount
    unfold IndexNSG.build
    rw [hst]
    simp only [hg, if_true, check_knn_graph]
    rw [if_pos hcount]
    exact ⟨_, rfl, rfl⟩

/-- Witness for the amended claim C1, both sides: the one-invalid-entry
seed `g10` is rejected at `n = 10`, and a fully valid 10-row seed passes
and leaves the index built. -/
theorem build_rejects_seed_iff_row_tenth_witness :
    (IndexNSG.build idx0 xs0 g10 =
      Except.error (FaissError.invalidKnnGraph,
        { idx0 with storage := some (FlatStorage.add ⟨[]⟩ xs0),
                    ntotal := (FlatStorage.add (V := Unit) ⟨[]⟩ xs0).ntotal })) ∧
    (∃ idx2, IndexNSG.build idx0 xs0 (List.drop 1 g10 ++ [[0, 1]]) = Except.ok idx2 ∧
      idx2.is_built = true) :=
  ⟨(build_rejects_seed_iff_row_tenth idx0 ⟨[]⟩ xs0 g10 rfl (by decide)).1 (by decide),
   (build_rejects_seed_iff_row_tenth idx0 ⟨[]⟩ xs0 (List.drop 1 g10 ++ [[0, 1]]) rfl
      (by decide)).2 (by decide)⟩

/-! ## Guard against incremental addition (claim C4) -/

/-- Claim C4: on an index that is already built or already holds vectors,
`add` and `build` raise a usage error immediately and the error state is
the unchanged input state: no mutation of the index or its storage. -/
theorem add_build_guard_no_mutation {V : Type} (idx : IndexNSG V)
    (h : idx.is_built = true ∨ 0 < idx.ntotal)
    (assignRows nndRows : List (List Int)) (xs : List V) (g : List (List Int)) :
    (∃ e, IndexNSG.add idx assignRows nndRows xs = Except.error (e, idx)) ∧
    (∃ e, IndexNSG.build idx xs g = Except.error (e, idx)) := by
  have hguard : incremental_guard idx = false := by
    unfold incremental_guard
    rcases h with h | h
    · simp [h]
    · simp [Nat.pos_iff_ne_zero.mp h]
  constructor
  · unfold IndexNSG.add
    cases hst : idx.storage with
    | none => exact ⟨FaissError.nullStorage, rfl⟩
    | some st =>
        cases htr : idx.is_trained with
        | false => exact ⟨FaissError.notTrained, by simp⟩
        | true => exact ⟨FaissError.alreadyBuilt, by simp [hguard]⟩
  · unfold IndexNSG.build
    cases hst : idx.storage with
    | none => exact ⟨FaissError.nullStorage, rfl⟩
    | some st => exact ⟨FaissError.alreadyBuilt, by simp [hguard]⟩

/-- Witness for claim C4: a built index (and, through `idx0'`, an unbuilt
index that still holds vectors) refuses `add` and `build` unchanged. -/
theorem add_build_guard_no_mutation_witness :
    ((∃ e, IndexNSG.add { idx0 with is_built := true } aR0 [] xs0 =
        Except.error (e, { idx0 with is_built := true })) ∧
     (∃ e, IndexNSG.build { idx0 with is_built := true } xs0 g10 =
        Except.error (e, { idx0 with is_built := true }))) ∧
    ((∃ e, IndexNSG.add idx0' aR0 [] xs0 = Except.error (e, idx0')) ∧
     (∃ e, IndexNSG.build idx0' xs0 g10 = Except.error (e, idx0'))) :=
  ⟨add_build_guard_no_mutation { idx0 with is_built := true } (Or.inl rfl) aR0 [] xs0 g10,
   add_build_guard_no_mutation idx0' (Or.inr (by decide)) aR0 [] xs0 g10⟩

/-! ## Reset clears engine and storage (claim C9) -/

/-- Claim C9: on an index with a storage, `reset` succeeds and clears both
sides: `ntotal = 0`, `is_built = false`, the engine graph is dropped, the
storage is emptied, and the `add`/`build` guard admits a new build as on a
freshly constructed index. -/
theorem reset_clears_engine_and_storage {V : Type} (idx : IndexNSG V)
    (st : FlatStorage V) (hst : idx.storage = some st) :
    ∃ idx2, IndexNSG.reset idx = some idx2 ∧
      idx2.ntotal = 0 ∧ idx2.is_built = false ∧
      idx2.nsg.final_graph = none ∧ idx2.nsg.is_built = false ∧ idx2.nsg.ntotal = 0 ∧
      idx2.storage = some (FlatStorage.reset st) ∧ (FlatStorage.reset st).ntotal = 0 ∧
      incremental_guard idx2 = true := by
  refine ⟨{ idx with nsg := idx.nsg.reset, storage := some st.reset,
                     ntotal := 0, is_built := false },
    ?_, rfl, rfl, rfl, rfl, rfl, rfl, rfl, rfl⟩
  unfold IndexNSG.reset
  rw [hst]

/-- Witness for claim C9 at a concrete built index holding three vectors. -/
theorem reset_clears_engine_and_storage_witness :
    ∃ idx2,
      IndexNSG.reset
        { idx0 with is_built := true, ntotal := 3, storage := some ⟨[(), (), ()]⟩,
                    nsg := NSGEngine.build (NSGEngine.init 4) 3 [[1], [2], [0]] } = some idx2 ∧
      idx2.ntotal = 0 ∧ idx2.is_built = false ∧
      idx2.nsg.final_graph = none ∧ idx2.nsg.is_built = false ∧ idx2.nsg.ntotal = 0 ∧
      idx2.storage = some (FlatStorage.reset ⟨[(), (), ()]⟩) ∧
      (FlatStorage.reset (V := Unit) ⟨[(), (), ()]⟩).ntotal = 0 ∧
      incremental_guard idx2 = true :=
  reset_clears_engine_and_storage
    { idx0 with is_built := true, ntotal := 3, storage := some ⟨[(), (), ()]⟩,
                nsg := NSGEngine.build (NSGEngine.init 4) 3 [[1], [2], [0]] }
    ⟨[(), (), ()]⟩ rfl

/-! ## Reset dereferences the storage unchecked (claim C10) -/

/-- Claim C10: `train`, `add`, `build` and `search` each check for a
storage and raise the usage error on a bare `IndexNSG`, leaving the state
unchanged, while `reset` has no such branch: it dereferences the storage
unconditionally, so its embedding is defined exactly when a storage is
present. -/
theorem reset_unchecked_storage_dereference {V : Type} (idx : IndexNSG V)
    (h : idx.storage = none)
    (assignRows nndRows : List (List Int)) (xs : List V) (g : List (List Int))
    (bf : Nat → Int → List (Int × FloatV)) (n k : Nat) :
    IndexNSG.reset idx = none ∧
    IndexNSG.train idx xs = Except.error (FaissError.nullStorage, idx) ∧
    IndexNSG.add idx assignRows nndRows xs = Except.error (FaissError.nullStorage, idx) ∧
    IndexNSG.build idx xs g = Except.error (FaissError.nullStorage, idx) ∧
    IndexNSG.search idx bf n k none = Except.error FaissError.nullStorage ∧
    (∀ idx2 : IndexNSG V, (IndexNSG.reset idx2).isSome = idx2.storage.isSome) := by
  refine ⟨?_, ?_, ?_, ?_, ?_, ?_⟩
  · unfold IndexNSG.reset; rw [h]
  · unfold IndexNSG.train; rw [h]
  · unfold IndexNSG.add; rw [h]
  · unfold IndexNSG.build; rw [h]
  · unfold IndexNSG.search
    simp only [Option.isSome_none, Bool.false_eq_true, if_false]
    rw [h]
  · intro idx2
    unfold IndexNSG.reset
    cases idx2.storage <;> rfl

/-- A bare `IndexNSG` with no storage attached. -/
def idxNull : IndexNSG Unit := { idx0 with storage := none }

/-- Witness for claim C10 at a concrete storage-less index. -/
theorem reset_unchecked_storage_dereference_witness :
    IndexNSG.reset idxNull = none ∧
    IndexNSG.train idxNull xs0 = Except.error (FaissError.nullStorage, idxNull) ∧
    IndexNSG.add idxNull aR0 [] xs0 = Except.error (FaissError.nullStorage, idxNull) ∧
    IndexNSG.build idxNull xs0 g10 = Except.error (FaissError.nullStorage, idxNull) ∧
    IndexNSG.search idxNull (fun _ _ => []) 1 1 none =
      Except.error FaissError.nullStorage ∧
    (∀ idx2 : IndexNSG Unit, (IndexNSG.reset idx2).isSome = idx2.storage.isSome) :=
  reset_unchecked_storage_dereference idxNull rfl aR0 [] xs0 g10 (fun _ _ => []) 1 1

/-! ## State after a failed add (claim C2) -/

/-- Claim C2 as stated is false: at `idx0` (ten identical points, metric
L2, brute-force seed with `GK = 2`) the seed validation rejects the graph,
yet the state carried out of the failing `add` is `idx0'`, which differs
from the pre-call state: the vectors are already in storage and `ntotal`
is already 10, while `is_built` is still false, so the index is neither in
its pre-operation nor in a completed post-operation state. -/
theorem add_failure_mutated_state_counterexample :
    IndexNSG.add idx0 aR0 [] xs0 = Except.error (FaissError.invalidKnnGraph, idx0') ∧
    idx0' ≠ idx0 ∧ idx0.ntotal = 0 ∧ idx0'.ntotal = 10 ∧ idx0'.is_built = false ∧
    idx0'.storage = some ⟨xs0⟩ := by
  refine ⟨by decide, by decide, rfl, rfl, rfl, rfl⟩

/-- Claim C2 amended: when `add` fails because the seed KNN graph
validation rejects the graph, the index is not restored: the error state
has the `n` new vectors already appended to the storage and `ntotal = n`,
with `is_built` still false (the pre-call state had `ntotal = 0`). -/
theorem add_invalid_seed_leaves_mutated_state {V : Type} (idx : IndexNSG V)
    (assignRows nndRows : List (List Int)) (xs : List V) (s : IndexNSG V)
    (h : IndexNSG.add idx assignRows nndRows xs =
      Except.error (FaissError.invalidKnnGraph, s)) :
    ∃ st, idx.storage = some st ∧
      s.storage = some (st.add xs) ∧ s.ntotal = xs.length ∧
      s.is_built = false ∧ idx.ntotal = 0 ∧ s.ntotal = idx.ntotal + xs.length := by
  cases hst : idx.storage with
  | none =>
      unfold IndexNSG.add at h
      rw [hst] at h
      simp at h
  | some st =>
      refine ⟨st, rfl, ?_⟩
      unfold IndexNSG.add at h
      rw [hst] at h
      simp only [] at h
      split at h
      · split at h
        · rename_i htr hg
          have hg' := hg
          unfold incremental_guard at hg'
          simp only [Bool.and_eq_true, Bool.not_eq_true', beq_iff_eq] at hg'
          obtain ⟨hib, hnt⟩ := hg'
          split at h
          · split at h
            · rename_i hsz
              split at h
              · simp at h
              · simp only [Except.error.injEq, Prod.mk.injEq] at h
                obtain ⟨he, hs⟩ := h
                rw [← hs]
                exact ⟨rfl, hsz, hib, hnt, by simp [hsz, hnt]⟩
            · simp at h
          · split at h
            · split at h
              · rename_i hsz
                split at h
                · simp at h
                · simp only [Except.error.injEq, Prod.mk.injEq] at h
                  obtain ⟨he, hs⟩ := h
                  rw [← hs]
                  exact ⟨rfl, hsz, hib, hnt, by simp [hsz, hnt]⟩
              · simp at h
            · simp at h
        · simp at h
      · simp at h

/-- Witness for the amended claim C2 at the concrete failing `add`. -/
theorem add_invalid_seed_leaves_mutated_state_witness :
    ∃ st, idx0.storage = some st ∧
      idx0'.storage = some (st.add xs0) ∧ idx0'.ntotal = xs0.length ∧
      idx0'.is_built = false ∧ idx0.ntotal = 0 ∧
      idx0'.ntotal = idx0.ntotal + xs0.length :=
  add_invalid_seed_leaves_mutated_state idx0 aR0 [] xs0 idx0' (by decide)

/-! ## Add/reconstruct round trip on flat storage (claim C7) -/

/-- Claim C7: on an `IndexNSGFlat`, after a successful `add` of the
vectors `xs`, `reconstruct(i)` returns exactly the vector added as id `i`:
the facade forwards to the storage and flat storage stores verbatim. -/
theorem add_reconstruct_roundtrip {V : Type} (d : Nat) (R : Int) (metric : MetricType)
    (assignRows nndRows : List (List Int)) (xs : List V) (idx2 : IndexNSG V)
    (hadd : IndexNSG.add (IndexNSGFlat V d R metric) assignRows nndRows xs =
      Except.ok idx2)
    (i : Nat) (hi : i < xs.length) :
    IndexNSG.reconstruct idx2 i = some (xs.get ⟨i, hi⟩) := by
  have hsto : idx2.storage = some (FlatStorage.add ⟨[]⟩ xs) := by
    unfold IndexNSG.add IndexNSGFlat IndexNSG.mkWithStorage at hadd
    simp only [incremental_guard, FlatStorage.add, FlatStorage.ntotal,
      List.nil_append] at hadd
    norm_num at hadd
    split at hadd
    · simp only [Except.ok.injEq] at hadd
      rw [← hadd]
      simp [FlatStorage.add]
    · simp at hadd
  unfold IndexNSG.reconstruct
  rw [hsto]
  unfold FlatStorage.reconstruct FlatStorage.add
  simp [List.get?_eq_get hi]

/-- Twenty distinct integer payload vectors. -/
def cRoundXs : List Int := (List.range 20).map (fun j => (j : Int))

/-- A valid NNDescent-style seed for those twenty points: each row links
to the next id modulo 20. -/
def cRoundRows : List (List Int) := (List.range 20).map (fun j => [((j + 1) % 20 : Nat)])

/-- The index state a successful `add` of `cRoundXs` produces. -/
def cRoundAfter : IndexNSG Int :=
  { IndexNSGFlat Int 1 32 MetricType.METRIC_L2 with
      storage := some ⟨cRoundXs⟩, ntotal := 20,
      nsg := NSGEngine.build (NSGEngine.init 32) 20 cRoundRows, is_built := true }

/-- Witness for claim C7: a concrete successful `add` of twenty vectors on
a fresh `IndexNSGFlat`, then `reconstruct 7` returns the vector added
as id 7. -/
theorem add_reconstruct_roundtrip_witness :
    IndexNSG.add (IndexNSGFlat Int 1 32 MetricType.METRIC_L2) [] cRoundRows cRoundXs =
      Except.ok cRoundAfter ∧
    IndexNSG.reconstruct cRoundAfter 7 = some (cRoundXs.get ⟨7, by decide⟩) :=
  ⟨by decide,
   add_reconstruct_roundtrip 1 32 MetricType.METRIC_L2 [] cRoundRows cRoundXs
     cRoundAfter (by decide) 7 (by decide)⟩

/-! ## Search output shape (claims C3 and C6) -/

/-- Every per-query answer of the modelled engine search has exactly `k`
output slots: the top-`k` candidates padded with sentinels. -/
theorem searchQuery_length (nsg : NSGEngine) (bfq : Int → List (Int × FloatV))
    (k : Nat) : (nsg.searchQuery bfq k).length = k := by
  unfold NSGEngine.searchQuery
  simp [List.length_take]

/-- Flattening rows whose images under `g` all have length `k` yields
`rows.length * k` elements. -/
theorem flatten_rows_length {α β : Type} (rows : List (List α))
    (g : List α → List β) (k : Nat) (h : ∀ r ∈ rows, (g r).length = k) :
    ((rows.map g).flatten).length = rows.length * k := by
  induction rows with
  | nil => simp
  | cons r rest ih =>
      simp only [List.map_cons, List.flatten_cons, List.length_append, List.length_cons]
      rw [h r (List.mem_cons_self r rest), ih (fun x hx => h x (List.mem_cons_of_mem r hx))]
      ring

/-- Claim C3: with an attached storage and the inner-product metric, the
search returns `.ok`; the flattened distance output is the slot-by-slot
negation of the raw engine distances, with `n * k` slots in total, and each
per-query answer is produced with candidate capacity `max(search_L, k)`. -/
theorem search_ip_negates_all_slots {V : Type} (idx : IndexNSG V)
    (st : FlatStorage V) (bf : Nat → Int → List (Int × FloatV)) (n k : Nat)
    (hst : idx.storage = some st)
    (hm : idx.metric_type = MetricType.METRIC_INNER_PRODUCT) :
    IndexNSG.search idx bf n k none =
      Except.ok
        (((idx.searchRows bf n k).map (fun r => r.map Prod.fst)).flatten,
         (((idx.searchRows bf n k).map (fun r => r.map Prod.snd)).flatten).map
           FloatV.neg) ∧
    (((idx.searchRows bf n k).map (fun r => r.map Prod.snd)).flatten).length = n * k ∧
    (∀ qi : Nat, idx.nsg.searchQuery (bf qi) k =
      ((bf qi (max idx.nsg.search_L (k : Int))).take k) ++
        List.replicate (k - ((bf qi (max idx.nsg.search_L (k : Int))).take k).length)
          ((-1 : Int), FloatV.inf)) := by
  refine ⟨?_, ?_, fun qi => rfl⟩
  · unfold IndexNSG.search
    rw [hst, hm]
    rfl
  · have hrows : ∀ r ∈ idx.searchRows bf n k,
        ((fun (r : List (Int × FloatV)) => r.map Prod.snd) r).length = k := by
      intro r hr
      obtain ⟨qi, _, hqi⟩ := List.mem_map.mp hr
      rw [← hqi]
      simp [searchQuery_length]
    rw [flatten_rows_length (idx.searchRows bf n k)
      (fun (r : List (Int × FloatV)) => r.map Prod.snd) k hrows]
    simp [IndexNSG.searchRows]

/-- A two-candidate best-first answer used by the search witnesses. -/
def cCands : List (Int × FloatV) := [(0, FloatV.num 5), (1, FloatV.num 7)]

/-- An inner-product flat NSG index holding two vectors. -/
def cIdxIP : IndexNSG Int :=
  { IndexNSGFlat Int 1 32 MetricType.METRIC_INNER_PRODUCT with
      storage := some ⟨[3, 4]⟩, ntotal := 2,
      nsg := NSGEngine.build (NSGEngine.init 32) 2 [[1], [0]], is_built := true }

/-- Witness for claim C3 at the concrete two-vector inner-product index,
two queries, `k = 3`. -/
theorem search_ip_negates_all_slots_witness :
    IndexNSG.search cIdxIP (fun _ _ => cCands) 2 3 none =
      Except.ok
        (((cIdxIP.searchRows (fun _ _ => cCands) 2 3).map
            (fun r => r.map Prod.fst)).flatten,
         (((cIdxIP.searchRows (fun _ _ => cCands) 2 3).map
            (fun r => r.map Prod.snd)).flatten).map FloatV.neg) ∧
    (((cIdxIP.searchRows (fun _ _ => cCands) 2 3).map
        (fun r => r.map Prod.snd)).flatten).length = 2 * 3 ∧
    (∀ qi : Nat, cIdxIP.nsg.searchQuery ((fun _ _ => cCands) qi) 3 =
      (((fun _ _ => cCands) qi (max cIdxIP.nsg.search_L (3 : Int))).take 3) ++
        List.replicate
          (3 - (((fun _ _ => cCands) qi (max cIdxIP.nsg.search_L (3 : Int))).take 3).length)
          ((-1 : Int), FloatV.inf)) :=
  search_ip_negates_all_slots cIdxIP ⟨[3, 4]⟩ (fun _ _ => cCands) 2 3 rfl rfl

/-- Claim C6: with a storage attached and `k > ntotal`, a query whose
best-first walk returns all `ntotal` stored points (each with a valid id
in `[0, ntotal)` and a finite distance) produces a result row whose first
`ntotal` slots are those valid pairs and whose remaining `k - ntotal`
slots are the sentinel `(-1, +inf)`; the search itself returns `.ok`, so
in particular an empty index is not an error and yields only sentinels. -/
theorem search_pads_sentinels_beyond_ntotal {V : Type} (idx : IndexNSG V)
    (st : FlatStorage V) (bf : Nat → Int → List (Int × FloatV)) (n k qi : Nat)
    (cands : List (Int × FloatV))
    (hst : idx.storage = some st)
    (hq : bf qi (max idx.nsg.search_L (k : Int)) = cands)
    (hlen : cands.length = idx.ntotal)
    (hvalid : ∀ p ∈ cands, 0 ≤ p.1 ∧ p.1 < (idx.ntotal : Int) ∧ p.2 ≠ FloatV.inf)
    (hk : idx.ntotal < k) :
    (∃ out, IndexNSG.search idx bf n k none = Except.ok out) ∧
    idx.nsg.searchQuery (bf qi) k =
      cands ++ List.replicate (k - idx.ntotal) ((-1 : Int), FloatV.inf) ∧
    (∀ j, j < idx.ntotal →
      ∃ p, (idx.nsg.searchQuery (bf qi) k)[j]? = some p ∧
        0 ≤ p.1 ∧ p.1 < (idx.ntotal : Int) ∧ p.2 ≠ FloatV.inf) ∧
    (∀ j, idx.ntotal ≤ j → j < k →
      (idx.nsg.searchQuery (bf qi) k)[j]? = some ((-1 : Int), FloatV.inf)) := by
  have htake : (bf qi (max idx.nsg.search_L (k : Int))).take k = cands := by
    rw [hq]
    exact List.take_of_length_le (by omega)
  have hrow : idx.nsg.searchQuery (bf qi) k =
      cands ++ List.replicate (k - idx.ntotal) ((-1 : Int), FloatV.inf) := by
    unfold NSGEngine.searchQuery
    rw [htake]
    simp only []
    rw [hlen]
  refine ⟨?_, hrow, ?_, ?_⟩
  · unfold IndexNSG.search
    rw [hst]
    exact ⟨_, rfl⟩
  · intro j hj
    rw [hrow]
    rw [List.getElem?_append_left (by omega : j < cands.length)]
    obtain ⟨p, hp⟩ : ∃ p, cands[j]? = some p := by
      have : j < cands.length := by omega
      simp [List.getElem?_eq_getElem this]
    exact ⟨p, hp, hvalid p (List.getElem?_mem hp)⟩
  · intro j hj1 hj2
    rw [hrow]
    rw [List.getElem?_append_right (by omega : cands.length ≤ j)]
    rw [hlen]
    have : j - idx.ntotal < k - idx.ntotal := by omega
    simp [List.getElem?_replicate, this]

/-- Witness for claim C6: two stored points, `k = 4`: the row is the two
valid pairs followed by two `(-1, +inf)` sentinels, and the search is ok. -/
theorem search_pads_sentinels_beyond_ntotal_witness :
    (∃ out, IndexNSG.search cIdxIP (fun _ _ => cCands) 1 4 none = Except.ok out) ∧
    cIdxIP.nsg.searchQuery ((fun _ _ => cCands) 0) 4 =
      cCands ++ List.replicate (4 - cIdxIP.ntotal) ((-1 : Int), FloatV.inf) ∧
    (∀ j, j < cIdxIP.ntotal →
      ∃ p, (cIdxIP.nsg.searchQuery ((fun _ _ => cCands) 0) 4)[j]? = some p ∧
        0 ≤ p.1 ∧ p.1 < (cIdxIP.ntotal : Int) ∧ p.2 ≠ FloatV.inf) ∧
    (∀ j, cIdxIP.ntotal ≤ j → j < 4 →
      (cIdxIP.nsg.searchQuery ((fun _ _ => cCands) 0) 4)[j]? =
        some ((-1 : Int), FloatV.inf)) :=
  search_pads_sentinels_beyond_ntotal cIdxIP ⟨[3, 4]⟩ (fun _ _ => cCands) 1 4 0 cCands
    rfl rfl (by decide) (by decide) (by decide)

/-! ## Seed self-removal (claim C5) -/

/-- The inner-product scan loop equals filter-then-take: starting at
`count = c < GK`, it keeps the ids different from `i`, in order, up to
`GK - c` of them. -/
theorem selectNonSelfGo_eq_filter_take (i : Int) (GK : Nat) (row : List Int) :
    ∀ c, c < GK →
      selectNonSelfGo i GK row c = (row.filter (fun x => x ≠ i)).take (GK - c) := by
  induction row with
  | nil => intro c _; simp [selectNonSelfGo]
  | cons id rest ih =>
      intro c hc
      by_cases hid : id = i
      · rw [selectNonSelfGo, if_pos hid, if_neg (by omega), ih c hc]
        simp [hid]
      · rw [selectNonSelfGo, if_neg hid]
        have hfil : (id :: rest).filter (fun x => x ≠ i) =
            id :: rest.filter (fun x => x ≠ i) := by
          simp [List.filter_cons, hid]
        rw [hfil]
        have hGKc : GK - c = (GK - (c + 1)) + 1 := by omega
        rw [hGKc, List.take_succ_cons]
        by_cases hc1 : c + 1 = GK
        · rw [if_pos hc1]
          have : GK - (c + 1) = 0 := by omega
          rw [this]
          simp
        · rw [if_neg hc1, ih (c + 1) (by omega)]

/-- On a duplicate-free list at most one element equals `i`, so filtering
`i` out drops at most one element. -/
theorem length_filter_ne_of_nodup (row : List Int) (i : Int) (h : row.Nodup) :
    row.length ≤ (row.filter (fun x => x ≠ i)).length + 1 := by
  induction row with
  | nil => simp
  | cons a rest ih =>
      obtain ⟨ha, hrest⟩ : a ∉ rest ∧ rest.Nodup := by
        simpa [List.nodup_cons] using h
      have ihr := ih hrest
      rw [List.filter_cons]
      by_cases hai : a = i
      · have hpa : (decide (a ≠ i)) = false := by simp [hai]
        rw [hpa]
        have hall : rest.filter (fun x => x ≠ i) = rest :=
          List.filter_eq_self.mpr (fun x hx => by
            simp only [ne_eq, decide_eq_true_eq]
            exact fun he => ha (hai ▸ he ▸ hx))
        simp only [Bool.false_eq_true, if_false]
        rw [hall]
        simp
      · have hpa : (decide (a ≠ i)) = true := by simp [hai]
        rw [hpa]
        simp only [if_true, List.length_cons]
        omega

/-- The inner-product branch removes exactly the own id: on a
duplicate-free row of `GK + 1` assigned ids the result keeps `GK` ids and
never contains `i`. -/
theorem removeSelfIP_spec (i : Int) (GK : Nat) (row : List Int)
    (hGK : 0 < GK) (hlen : row.length = GK + 1) (hnd : row.Nodup) :
    (removeSelfIP i GK row).length = GK ∧ (i : Int) ∉ removeSelfIP i GK row := by
  have heq : removeSelfIP i GK row = (row.filter (fun x => x ≠ i)).take GK := by
    unfold removeSelfIP
    rw [selectNonSelfGo_eq_filter_take i GK row 0 hGK]
    simp
  constructor
  · rw [heq, List.length_take]
    have h1 := length_filter_ne_of_nodup row i hnd
    have h2 : (row.filter (fun x => x ≠ i)).length ≤ row.length :=
      List.length_filter_le _ _
    omega
  · rw [heq]
    intro hmem
    have := List.mem_of_mem_filter (List.take_subset _ _ hmem)
    have hpred := List.of_mem_filter (List.take_subset _ _ hmem)
    simp at hpred

/-- The row-indexed loop of the inner-product branch keeps the row count. -/
theorem buildKnngIPGo_length (GK : Nat) (rows : List (List Int)) :
    ∀ s, (buildKnngIPGo GK s rows).length = rows.length := by
  induction rows with
  | nil => intro s; rfl
  | cons row rest ih => intro s; simp [buildKnngIPGo, ih]

/-- Row `j` of the inner-product loop started at row index `s` is the
self-removal of input row `j` with own id `s + j`. -/
theorem buildKnngIPGo_getElem (GK : Nat) (rows : List (List Int)) :
    ∀ s j, (buildKnngIPGo GK s rows)[j]? =
      (rows[j]?).map (fun row => removeSelfIP ((s + j : Nat) : Int) GK row) := by
  induction rows with
  | nil => intro s j; simp [buildKnngIPGo]
  | cons row rest ih =>
      intro s j
      cases j with
      | zero => simp [buildKnngIPGo]
      | succ j' =>
          simp only [buildKnngIPGo, List.getElem?_cons_succ]
          rw [ih (s + 1) j']
          have : s + 1 + j' = s + (j' + 1) := by omega
          rw [this]

/-- Claim C5: the brute-force seed handed to the NSG builder has `GK`
entries per row and no row contains its own id, given that `assign`
returned `GK + 1` distinct ids per row and, for the metric branch (which
drops the first assigned id unconditionally), that the first assigned id
of row `j` is `j` itself; the inner-product branch needs no such
assumption since it removes the own id by scanning. -/
theorem seed_rows_exclude_self (metric : MetricType) (GK : Nat)
    (rows : List (List Int)) (hGK : 0 < GK)
    (hlen : ∀ row ∈ rows, row.length = GK + 1)
    (hnodup : ∀ row ∈ rows, row.Nodup)
    (hhead : metric ≠ MetricType.METRIC_INNER_PRODUCT →
      ∀ (j : Nat) (row : List Int), rows[j]? = some row → row.head? = some (j : Int)) :
    (buildKnngBF metric GK rows).length = rows.length ∧
    ∀ (j : Nat) (row2 : List Int), (buildKnngBF metric GK rows)[j]? = some row2 →
      row2.length = GK ∧ (j : Int) ∉ row2 := by
  unfold buildKnngBF
  by_cases hm : metric = MetricType.METRIC_INNER_PRODUCT
  · rw [if_pos hm]
    refine ⟨buildKnngIPGo_length GK rows 0, ?_⟩
    intro j row2 hj
    rw [buildKnngIPGo_getElem GK rows 0 j] at hj
    cases hrow : rows[j]? with
    | none => rw [hrow] at hj; simp at hj
    | some row =>
        rw [hrow] at hj
        simp only [Option.map_some', Option.some.injEq] at hj
        have hmem : row ∈ rows := List.getElem?_mem hrow
        have hspec := removeSelfIP_spec ((0 + j : Nat) : Int) GK row hGK
          (hlen row hmem) (hnodup row hmem)
        rw [← hj]
        simpa using hspec
  · rw [if_neg hm]
    refine ⟨by simp, ?_⟩
    intro j row2 hj
    rw [List.getElem?_map] at hj
    cases hrow : rows[j]? with
    | none => rw [hrow] at hj; simp at hj
    | some row =>
        rw [hrow] at hj
        simp only [Option.map_some', Option.some.injEq] at hj
        have hmem : row ∈ rows := List.getElem?_mem hrow
        have hhd := hhead hm j row hrow
        cases row with
        | nil => simp at hhd
        | cons a rest =>
            have ha : a = (j : Int) := by simpa using hhd
            have hrl : rest.length = GK := by
              have := hlen _ hmem
              simpa using this
            obtain ⟨hanr, _⟩ : a ∉ rest ∧ rest.Nodup := by
              simpa [List.nodup_cons] using hnodup _ hmem
            have hdrop : ((a :: rest).drop 1).take GK = rest := by
              simp [List.take_of_length_le, hrl]
            rw [← hj, hdrop]
            exact ⟨hrl, ha ▸ hanr⟩

/-- Witness for claim C5: two rows of three distinct ids under the
inner-product metric are compacted to two ids each, own id removed. -/
theorem seed_rows_exclude_self_witness :
    (buildKnngBF MetricType.METRIC_INNER_PRODUCT 2 [[0, 1, 2], [1, 0, 2]]).length =
      ([[0, 1, 2], [1, 0, 2]] : List (List Int)).length ∧
    ∀ (j : Nat) (row2 : List Int),
      (buildKnngBF MetricType.METRIC_INNER_PRODUCT 2 [[0, 1, 2], [1, 0, 2]])[j]? =
        some row2 →
      row2.length = 2 ∧ (j : Int) ∉ row2 :=
  seed_rows_exclude_self MetricType.METRIC_INNER_PRODUCT 2 [[0, 1, 2], [1, 0, 2]]
    (by decide) (by decide) (by decide) (fun h => absurd rfl h)

end Faiss
